import Mathlib

/-!
Shallow embedding of the tabular query session of the `vscode-data-viewer`
repository (webview grid logic, history ledger, loader registry, identifier
sanitizer, export pipeline), together with theorems settling the frozen
claims about its specification.

Sources embedded:
- the webview module (interfaces `TableRow`/`TableData`/`QueryHistoryEntry`,
  functions `formatCell`, `compareValues`, `applyTableState`, `toggleSort`,
  `renderResults`, `recordQueryHistory`, `runQuery`, `selectLoader`,
  `exportResult`);
- the loader modules (`csvLoader.canLoad`, `parquetLoader.canLoad`,
  `arrowLoader.canLoad`, `DATA_LOADERS` priority order);
- the identifier sanitizer `generateViewName` / `formatIdentifierForSql`.

JavaScript strings are Lean `String`s; engine-native cell values are the
inductive `Value` below, covering the runtime cases `formatCell` and
`compareValues` branch on (null, undefined, finite and non-finite numbers,
Date, string, boolean, bigint, plain object).  Asynchronous engine calls
are modelled by passing the engine's response as an explicit parameter;
DOM writes are modelled as pure outputs (the derived visible-row list, an
effect trace for the export pipeline).
-/

namespace DataViewer

/-- Lowercase rendering of a string, embedding `String.prototype.toLowerCase`
(character-wise lowering, as `String.toLower`). -/
def strLower (s : String) : String := ⟨s.data.map Char.toLower⟩

/-- Embedding of `String.prototype.trim`: strip leading and trailing
whitespace. -/
def jsTrim (s : String) : String :=
  ⟨((s.data.dropWhile Char.isWhitespace).reverse.dropWhile Char.isWhitespace).reverse⟩

/-- Embedding of `String.prototype.includes`: `pat` occurs contiguously in `hay`. -/
def strIncludes (hay pat : String) : Bool :=
  (List.range (hay.data.length + 1)).any (fun i => pat.data.isPrefixOf (hay.data.drop i))

/-- Decimal digit character for `n < 10`. -/
def digitChar (n : Nat) : Char := Char.ofNat (48 + n)

/-- Little-endian decimal digits of a natural number (always non-empty). -/
def natDigitsRev (n : Nat) : List Char :=
  if h : n < 10 then [digitChar n]
  else digitChar (n % 10) :: natDigitsRev (n / 10)
decreasing_by exact Nat.div_lt_self (by omega) (by omega)

/-- Decimal rendering of a natural number, as `Number.prototype.toString`. -/
def natToString (n : Nat) : String := ⟨(natDigitsRev n).reverse⟩

/-- Decimal rendering of an integer, as JavaScript number/bigint `toString`. -/
def intToString (i : Int) : String :=
  if i < 0 then "-" ++ natToString i.natAbs else natToString i.natAbs

/-- Zero-padded two-digit rendering used by ISO date fields. -/
def pad2 (n : Nat) : String :=
  if n < 10 then "0" ++ natToString n else natToString n

/-- Zero-padded three-digit rendering used by ISO millisecond fields. -/
def pad3 (n : Nat) : String :=
  if n < 10 then "00" ++ natToString n
  else if n < 100 then "0" ++ natToString n
  else natToString n

/-- Zero-padded four-digit rendering of the ISO year (proleptic, sign kept). -/
def pad4 (i : Int) : String :=
  let a := i.natAbs
  let core :=
    if a < 10 then "000" ++ natToString a
    else if a < 100 then "00" ++ natToString a
    else if a < 1000 then "0" ++ natToString a
    else natToString a
  if i < 0 then "-" ++ core else core

/-- Embedding of `Date.prototype.toISOString` on epoch milliseconds: civil date
via the standard days-from-epoch algorithm, then `YYYY-MM-DDTHH:MM:SS.mmmZ`. -/
def dateToISO (ms : Int) : String :=
  let day := ms.fdiv 86400000
  let msod := (ms - day * 86400000).toNat
  let hh := msod / 3600000
  let mi := msod % 3600000 / 60000
  let ss := msod % 60000 / 1000
  let mss := msod % 1000
  let z := day + 719468
  let era := z.fdiv 146097
  let doe := (z - era * 146097).toNat
  let yoe := (doe - doe / 1460 + doe / 36524 - doe / 146096) / 365
  let doy := doe - (365 * yoe + yoe / 4 - yoe / 100)
  let mp := (5 * doy + 2) / 153
  let d := doy - (153 * mp + 2) / 5 + 1
  let m := if mp < 10 then mp + 3 else mp - 9
  let y : Int := (yoe : Int) + era * 400 + (if m ≤ 2 then 1 else 0)
  pad4 y ++ "-" ++ pad2 m ++ "-" ++ pad2 d ++ "T" ++
    pad2 hh ++ ":" ++ pad2 mi ++ ":" ++ pad2 ss ++ "." ++ pad3 mss ++ "Z"

/-- JSON trees, the shape of plain-object cell values (Arrow struct/list rows). -/
inductive Json where
  | jnull : Json
  | jbool : Bool → Json
  | jnum : Int → Json
  | jstr : String → Json
  | jarr : List Json → Json
  | jobj : List (String × Json) → Json
deriving Repr

/-- String-literal escaping as performed by `JSON.stringify`. -/
def jsonEscape (s : String) : String :=
  ⟨s.data.foldr (fun c acc =>
    if c = '"' then '\\' :: '"' :: acc
    else if c = '\\' then '\\' :: '\\' :: acc
    else c :: acc) []⟩

mutual

/-- Embedding of `JSON.stringify` on JSON trees. -/
def jsonStringify : Json → String
  | Json.jnull => "null"
  | Json.jbool b => if b then "true" else "false"
  | Json.jnum i => intToString i
  | Json.jstr s => "\"" ++ jsonEscape s ++ "\""
  | Json.jarr xs => "[" ++ jsonStringifyList xs ++ "]"
  | Json.jobj fs => "\x7b" ++ jsonStringifyFields fs ++ "\x7d"

/-- Comma-joined stringification of array elements. -/
def jsonStringifyList : List Json → String
  | [] => ""
  | [x] => jsonStringify x
  | x :: xs => jsonStringify x ++ "," ++ jsonStringifyList xs

/-- Comma-joined stringification of object fields. -/
def jsonStringifyFields : List (String × Json) → String
  | [] => ""
  | [(k, v)] => "\"" ++ jsonEscape k ++ "\":" ++ jsonStringify v
  | (k, v) :: fs =>
      "\"" ++ jsonEscape k ++ "\":" ++ jsonStringify v ++ "," ++ jsonStringifyFields fs

end

/-- Engine-native cell values as seen by the webview at runtime: the JavaScript
cases distinguished by `formatCell` and `compareValues`.  Finite numbers are
carried as integers (the dynamic type and finiteness, which are all the grid
logic inspects, are preserved); `vDate` carries epoch milliseconds. -/
inductive Value where
  | vNull : Value
  | vUndefined : Value
  | vNum : Int → Value
  | vNaN : Value
  | vInf : Value
  | vNegInf : Value
  | vDate : Int → Value
  | vStr : String → Value
  | vBool : Bool → Value
  | vBigInt : Int → Value
  | vObj : Json → Value
deriving Repr

namespace Value

/-- `typeof v === 'number' && Number.isFinite(v)`. -/
def isFiniteNumber : Value → Bool
  | vNum _ => true
  | _ => false

/-- `v instanceof Date`. -/
def isDate : Value → Bool
  | vDate _ => true
  | _ => false

/-- JavaScript strict equality `===` on cell values: value equality for
primitives (with `NaN === NaN` false), reference equality for objects and
dates — two cells produced by distinct rows are distinct references, so
object/date comparisons are `false` here. -/
def jsEq : Value → Value → Bool
  | vNull, vNull => true
  | vUndefined, vUndefined => true
  | vNum a, vNum b => a == b
  | vInf, vInf => true
  | vNegInf, vNegInf => true
  | vStr a, vStr b => a == b
  | vBool a, vBool b => a == b
  | vBigInt a, vBigInt b => a == b
  | _, _ => false

end Value

/-- Embedding of the webview's `formatCell`: display text of a raw value. -/
def formatCell : Value → String
  | Value.vNull => ""
  | Value.vUndefined => ""
  | Value.vDate ms => dateToISO ms
  | Value.vNum i => intToString i
  | Value.vNaN => ""
  | Value.vInf => ""
  | Value.vNegInf => ""
  | Value.vObj j => jsonStringify j
  | Value.vStr s => s
  | Value.vBool b => if b then "true" else "false"
  | Value.vBigInt i => intToString i

/-- One grid row: the `TableRow` interface (`raw` values plus their `display`
renderings, built in `renderResults`). -/
structure TableRow where
  raw : List Value
  display : List String

/-- The `TableData` interface: the immutable result snapshot the grid holds. -/
structure TableData where
  columns : List String
  rows : List TableRow

/-- Sort direction: `'asc' | 'desc'`; the `null` of `SortDirection` is modelled
by `Option` in the sort state. -/
inductive SortDirection where
  | asc : SortDirection
  | desc : SortDirection
deriving Repr, DecidableEq

/-- The webview's `sortState` record; neutral is `columnIndex = -1`,
`direction = null`. -/
structure SortState where
  columnIndex : Int
  direction : Option SortDirection
deriving Repr, DecidableEq

/-- The neutral sort state `\x7b columnIndex: -1, direction: null \x7d`. -/
def neutralSort : SortState := ⟨-1, none⟩

/-- An Arrow result table as consumed by `renderResults`: named schema fields
plus rows given as name-value association lists (`row[field.name]` lookup). -/
structure ArrowTable where
  fields : List String
  data : List (List (String × Value))

/-- `table.numRows`. -/
def ArrowTable.numRows (t : ArrowTable) : Nat := t.data.length

/-- `row[field.name]`: property access on an Arrow row proxy; a missing field
reads as JavaScript `undefined`. -/
def arrowRowGet (row : List (String × Value)) (field : String) : Value :=
  match row.find? (fun kv => kv.fst == field) with
  | some kv => kv.snd
  | none => Value.vUndefined

/-- The webview's grid-scoped mutable state: the snapshot and the
filter/sort/search state, plus the cached last Arrow result. -/
structure GridState where
  currentTableData : Option TableData
  columnFilters : List String
  globalFilter : String
  sortState : SortState
  lastArrowResult : Option ArrowTable

/-- Embedding of the webview's `compareValues(a, b, aDisplay, bDisplay)`; the
locale-aware text fallback is modelled as lexicographic comparison of the
lowercased display strings. -/
def compareValues (a b : Value) (aDisplay bDisplay : String) : Int :=
  if Value.jsEq a b then 0
  else if a.isFiniteNumber && b.isFiniteNumber then
    (match a, b with
     | Value.vNum x, Value.vNum y => if x < y then -1 else 1
     | _, _ => 0)
  else if a.isDate && b.isDate then
    (match a, b with
     | Value.vDate x, Value.vDate y => x - y
     | _, _ => 0)
  else
    (match compare (strLower aDisplay) (strLower bDisplay) with
     | Ordering.lt => (-1 : Int)
     | Ordering.eq => 0
     | Ordering.gt => 1)

/-- The per-column-filter conjunct of the row predicate in `applyTableState`:
`normalizedFilters.every((filter, idx) => !filter ||
(row.display[idx] ?? '').toLowerCase().includes(filter))`, walking the filter
list with its index into the display list. -/
def colFiltersPass : List String → List String → Bool
  | [], _ => true
  | f :: fs, ds =>
      (f == "" || strIncludes (strLower (ds.headD "")) f) && colFiltersPass fs ds.tail

/-- The whole row predicate of `applyTableState`: global filter (any cell
contains the normalized global text) and every per-column filter. -/
def rowPasses (normalizedGlobal : String) (normalizedFilters : List String)
    (row : TableRow) : Bool :=
  (normalizedGlobal == ""
    || row.display.any (fun cell => strIncludes (strLower cell) normalizedGlobal))
  && colFiltersPass normalizedFilters row.display

/-- The derivation core of `applyTableState`: the visible-row projection
computed from a snapshot and the filter/sort/search state.  Filtering first,
then — when a sort column is set — sorting a copy of the filtered list with
`compareValues` under the direction multiplier. -/
def applyTableState (td : TableData) (globalFilter : String)
    (columnFilters : List String) (ss : SortState) : List TableRow :=
  let normalizedGlobal := strLower (jsTrim globalFilter)
  let normalizedFilters := columnFilters.map (fun v => strLower (jsTrim v))
  let visibleRows := td.rows.filter (rowPasses normalizedGlobal normalizedFilters)
  if ss.direction.isSome && 0 ≤ ss.columnIndex then
    let directionMultiplier : Int := if ss.direction = some SortDirection.asc then 1 else -1
    let sortIndex := ss.columnIndex.toNat
    visibleRows.mergeSort (fun a b =>
      compareValues (a.raw.getD sortIndex Value.vUndefined)
        (b.raw.getD sortIndex Value.vUndefined)
        (a.display.getD sortIndex "") (b.display.getD sortIndex "")
        * directionMultiplier ≤ 0)
  else
    visibleRows

/-- The visible rows derived from a grid state (empty when no snapshot is
held, mirroring the early return on `!currentTableData`). -/
def visibleRowsOf (g : GridState) : List TableRow :=
  match g.currentTableData with
  | none => []
  | some td => applyTableState td g.globalFilter g.columnFilters g.sortState

/-- Embedding of the webview's `toggleSort(columnIndex)` state transition. -/
def toggleSort (columnIndex : Nat) (g : GridState) : GridState :=
  if g.sortState.columnIndex = (columnIndex : Int) then
    if g.sortState.direction = some SortDirection.asc then
      { g with sortState := { g.sortState with direction := some SortDirection.desc } }
    else if g.sortState.direction = some SortDirection.desc then
      { g with sortState := neutralSort }
    else
      { g with sortState := { g.sortState with direction := some SortDirection.asc } }
  else
    { g with sortState := ⟨(columnIndex : Int), some SortDirection.asc⟩ }

/-- Row construction in `renderResults`: for each schema field, push the raw
value and its `formatCell` rendering. -/
def buildTableRow (fields : List String) (row : List (String × Value)) : TableRow :=
  { raw := fields.map (fun f => arrowRowGet row f)
    display := fields.map (fun f => formatCell (arrowRowGet row f)) }

/-- Embedding of the webview's `renderResults(table)` state transition: a null
or zero-row table clears the snapshot (and leaves the filter/sort state
untouched); otherwise the snapshot is rebuilt and the filter/sort/search
state is reset to neutral. -/
def renderResults (table : Option ArrowTable) (g : GridState) : GridState :=
  match table with
  | none =>
      { g with currentTableData := none, lastArrowResult := none }
  | some t =>
      if t.numRows = 0 then
        { g with currentTableData := none, lastArrowResult := some t }
      else
        let columns := t.fields
        let rows := t.data.map (buildTableRow t.fields)
        { g with
            currentTableData := some { columns := columns, rows := rows }
            columnFilters := columns.map (fun _ => "")
            globalFilter := ""
            sortState := neutralSort
            lastArrowResult := some t }

/-- The `QueryHistoryEntry` interface of the webview. -/
structure QueryHistoryEntry where
  id : Nat
  sql : String
  timestamp : Nat
  durationMs : Nat
  rowCount : Nat
  error : Option String
deriving Repr, DecidableEq

/-- Embedding of `recordQueryHistory(entry)`:
`queryHistory = [entry, ...queryHistory].slice(0, 25)`. -/
def recordQueryHistory (entry : QueryHistoryEntry)
    (queryHistory : List QueryHistoryEntry) : List QueryHistoryEntry :=
  (entry :: queryHistory).take 25

/-- Recording a sequence of entries in order, oldest first. -/
def recordAllHistory (entries : List QueryHistoryEntry)
    (queryHistory : List QueryHistoryEntry) : List QueryHistoryEntry :=
  entries.foldl (fun h e => recordQueryHistory e h) queryHistory

/-- The session state touched by `runQuery`: the grid plus the history ledger
and its id counter. -/
structure ExecState where
  grid : GridState
  queryHistory : List QueryHistoryEntry
  nextHistoryId : Nat

/-- Outcome of one `runQuery` call: returned without running (blank input),
completed, or failed (the engine error is re-thrown after being recorded). -/
inductive RunOutcome where
  | notRun : RunOutcome
  | succeeded : RunOutcome
  | failed : String → RunOutcome
deriving Repr, DecidableEq

/-- `result ? result.numRows : 0`. -/
def numRowsOpt : Option ArrowTable → Nat
  | none => 0
  | some t => t.numRows

/-- Embedding of the webview's `runQuery(sql)`.  The engine's asynchronous
response (`connection.query`, which may return a table, a null table, or
throw) is the explicit `engineResult` parameter, and the measured wall-clock
duration and timestamp are parameters.  A blank query returns without
touching the state; otherwise one history entry is recorded whether the
engine call succeeds or fails, and on success the grid re-renders. -/
def runQuery (sql : String) (engineResult : Except String (Option ArrowTable))
    (durationMs timestamp : Nat) (st : ExecState) : ExecState × RunOutcome :=
  let normalizedSql := jsTrim sql
  if normalizedSql = "" then
    (st, RunOutcome.notRun)
  else
    let entryBase : QueryHistoryEntry :=
      { id := st.nextHistoryId
        sql := normalizedSql
        timestamp := timestamp
        durationMs := 0
        rowCount := 0
        error := none }
    let st1 := { st with nextHistoryId := st.nextHistoryId + 1 }
    match engineResult with
    | Except.ok result =>
        let grid := renderResults result st1.grid
        let history := recordQueryHistory
          { entryBase with durationMs := durationMs, rowCount := numRowsOpt result }
          st1.queryHistory
        ({ st1 with grid := grid, queryHistory := history }, RunOutcome.succeeded)
    | Except.error msg =>
        let history := recordQueryHistory
          { entryBase with durationMs := durationMs, error := some msg }
          st1.queryHistory
        ({ st1 with queryHistory := history }, RunOutcome.failed msg)

/-- A registered loader: its id and its pure `canLoad` capability predicate
(the effectful `load` member talks to the engine and is outside the
claims' scope). -/
structure DataLoader where
  id : String
  canLoad : String → Bool

/-- Case-insensitive extension-suffix test, the embedding of the loaders'
anchored case-insensitive extension regexes. -/
def endsWithCI (fileName suffix : String) : Bool :=
  suffix.data.isSuffixOf (strLower fileName).data

/-- The Arrow loader's capability: `/\.(arrow|ipc)$/i`. -/
def arrowLoader : DataLoader :=
  { id := "arrow"
    canLoad := fun fn => endsWithCI fn ".arrow" || endsWithCI fn ".ipc" }

/-- The Parquet loader's capability: `/\.(parquet|parq)$/i`. -/
def parquetLoader : DataLoader :=
  { id := "parquet"
    canLoad := fun fn => endsWithCI fn ".parquet" || endsWithCI fn ".parq" }

/-- The CSV loader's capability: `/\.csv$/i`. -/
def csvLoader : DataLoader :=
  { id := "csv"
    canLoad := fun fn => endsWithCI fn ".csv" }

/-- The registry in its fixed priority order. -/
def DATA_LOADERS : List DataLoader := [arrowLoader, parquetLoader, csvLoader]

/-- Embedding of `selectLoader(fileName)`: first matching loader, CSV
fallback. -/
def selectLoader (fileName : String) : DataLoader :=
  (DATA_LOADERS.find? (fun loader => loader.canLoad fileName)).getD csvLoader

/-- Character class `[A-Za-z0-9_]` of the sanitizer. -/
def isWordChar (c : Char) : Bool :=
  ('A' ≤ c && c ≤ 'Z') || ('a' ≤ c && c ≤ 'z') || ('0' ≤ c && c ≤ '9') || c == '_'

/-- Character class `[0-9]`. -/
def isDigitChar (c : Char) : Bool := '0' ≤ c && c ≤ '9'

/-- Character class `[A-Za-z_]`, the legal first character of an identifier. -/
def isIdentStartChar (c : Char) : Bool :=
  ('A' ≤ c && c ≤ 'Z') || ('a' ≤ c && c ≤ 'z') || c == '_'

/-- `fileName.split(/[\\/]/).pop() ?? fileName`: the trailing path
component (characters after the last slash or backslash). -/
def lastPathComponent (cs : List Char) : List Char :=
  (cs.reverse.takeWhile (fun c => !(c == '/' || c == '\\'))).reverse

/-- `baseName.replace(/\.[^.]+$/, '')`: drop the final extension when the last
dot is followed by at least one character (necessarily non-dot). -/
def stripLastExtension (cs : List Char) : List Char :=
  let rev := cs.reverse
  let ext := rev.takeWhile (fun c => !(c == '.'))
  if ext.length < rev.length && ext.length ≠ 0 then
    (rev.drop (ext.length + 1)).reverse
  else
    cs

/-- Embedding of `generateViewName(fileName)` (the `deriveRelationName` of the
identifier sanitizer): trailing path component, extension stripped, non-word
characters replaced by underscores, defaulted when empty, prefixed with
`v_` when starting with a digit. -/
def generateViewName (fileName : String) : String :=
  let baseName := lastPathComponent fileName.data
  let withoutExtension := stripLastExtension baseName
  let sanitized := withoutExtension.map (fun c => if isWordChar c then c else '_')
  let sanitized1 := if sanitized.isEmpty then "data_view".data else sanitized
  let sanitized2 :=
    if isDigitChar (sanitized1.headD ' ') then 'v' :: '_' :: sanitized1 else sanitized1
  ⟨sanitized2⟩

/-- `^[A-Za-z_][A-Za-z0-9_]*$` as a predicate on strings. -/
def matchesIdentPattern (s : String) : Bool :=
  match s.data with
  | [] => false
  | c :: rest => isIdentStartChar c && rest.all isWordChar

/-- The three export formats. -/
inductive ExportFormat where
  | csv : ExportFormat
  | parquet : ExportFormat
  | arrow : ExportFormat
deriving Repr, DecidableEq

/-- Lowercase format name. -/
def formatName : ExportFormat → String
  | ExportFormat.csv => "csv"
  | ExportFormat.parquet => "parquet"
  | ExportFormat.arrow => "arrow"

/-- `format.toUpperCase()` as used in the preparing-status message. -/
def formatUpper : ExportFormat → String
  | ExportFormat.csv => "CSV"
  | ExportFormat.parquet => "PARQUET"
  | ExportFormat.arrow => "ARROW"

/-- Observable effects of the export pipeline, in program order: export status
text, an engine statement, virtual-file traffic, and the `export-data` host
message that carries the produced bytes. -/
inductive ExportEffect where
  | exportStatus : String → ExportEffect
  | engineQuery : String → ExportEffect
  | copyFileToBuffer : String → ExportEffect
  | dropFile : String → ExportEffect
  | exportData : String → ExportFormat → Nat → ExportEffect
deriving Repr, DecidableEq

/-- Is this effect the host message carrying export bytes? -/
def ExportEffect.isHostByteMessage : ExportEffect → Bool
  | ExportEffect.exportData _ _ _ => true
  | _ => false

/-- Is this effect an engine statement? -/
def ExportEffect.isEngineQuery : ExportEffect → Bool
  | ExportEffect.engineQuery _ => true
  | _ => false

/-- Embedding of `requestFileSave`: status update then the `export-data` host
message with the byte buffer. -/
def requestFileSaveEffects (fileName : String) (format : ExportFormat)
    (byteLength : Nat) : List ExportEffect :=
  [ExportEffect.exportStatus "Choose where to save the file…",
   ExportEffect.exportData fileName format byteLength]

/-- `normalizeSqlForEmbedding`: `sql.replace(/;\s*$/g, '').trim()` — remove a
trailing semicolon (with trailing whitespace), then trim. -/
def normalizeSqlForEmbedding (sql : String) : String :=
  let rev := sql.data.reverse
  let ws := rev.takeWhile (fun c => c.isWhitespace)
  let stripped :=
    match rev.drop ws.length with
    | ';' :: r => r.reverse
    | _ => sql.data
  jsTrim (String.mk stripped)

/-- Embedding of the webview's `exportResult(format)`.  `queryText` is the
SQL input's current value; engine responses are explicit parameters
(`engineRun` for the query the Arrow branch may run, `copyOutcome` for the
`COPY`-plus-buffer-retrieval of the file formats, byte lengths for the
produced buffers).  Returns the updated session state and the ordered
effect trace; a thrown engine error cuts the trace at the throw. -/
def exportResult (format : ExportFormat) (queryText : String)
    (engineRun : Except String (Option ArrowTable)) (ipcByteLength : Nat)
    (copyOutcome : Except String Nat) (durationMs timestamp now : Nat)
    (st : ExecState) : ExecState × List ExportEffect :=
  let baseName := "duckdb_result"
  let normalizedQuery := jsTrim queryText
  if normalizedQuery = "" then
    (st, [ExportEffect.exportStatus "Write a SQL query to export first."])
  else
    let prep := ExportEffect.exportStatus ("Preparing " ++ formatUpper format ++ " export…")
    match format with
    | ExportFormat.arrow =>
        match st.grid.lastArrowResult with
        | some _ =>
            (st, prep :: requestFileSaveEffects (baseName ++ ".arrow") format ipcByteLength)
        | none =>
            let (st1, outcome) := runQuery normalizedQuery engineRun durationMs timestamp st
            match outcome with
            | RunOutcome.failed _ => (st1, [prep])
            | _ =>
                match st1.grid.lastArrowResult with
                | none =>
                    (st1, [prep,
                           ExportEffect.exportStatus "Run the query before exporting to Arrow."])
                | some _ =>
                    (st1, prep ::
                      requestFileSaveEffects (baseName ++ ".arrow") format ipcByteLength)
    | _ =>
        let extension := formatName format
        let exportPath := "memory://duckdb-viewer/" ++ natToString now ++ "." ++ extension
        let wrappedQuery := normalizeSqlForEmbedding normalizedQuery
        let copyStatement :=
          if format = ExportFormat.csv then
            "COPY (" ++ wrappedQuery ++ ") TO '" ++ exportPath ++ "' (FORMAT CSV, HEADER true);"
          else
            "COPY (" ++ wrappedQuery ++ ") TO '" ++ exportPath ++ "' (FORMAT PARQUET);"
        match copyOutcome with
        | Except.error _ => (st, [prep, ExportEffect.engineQuery copyStatement])
        | Except.ok bufferLength =>
            (st, [prep, ExportEffect.engineQuery copyStatement,
                  ExportEffect.copyFileToBuffer exportPath, ExportEffect.dropFile exportPath]
                 ++ requestFileSaveEffects (baseName ++ "." ++ extension) format bufferLength)

/-- The user interactions that re-derive the visible rows: editing the global
search box, editing one per-column filter input, clicking one sort header.
These are the three handlers that call `applyTableState`. -/
inductive GridOp where
  | setGlobalFilter : String → GridOp
  | setColumnFilter : Nat → String → GridOp
  | toggleSortOp : Nat → GridOp

/-- State transition of one interaction handler (the assignment it performs
before re-running `applyTableState`). -/
def applyGridOp (op : GridOp) (g : GridState) : GridState :=
  match op with
  | GridOp.setGlobalFilter value => { g with globalFilter := value }
  | GridOp.setColumnFilter idx value =>
      { g with columnFilters := g.columnFilters.set idx value }
  | GridOp.toggleSortOp idx => toggleSort idx g

/-- A whole interaction sequence, applied left to right. -/
def applyGridOps (ops : List GridOp) (g : GridState) : GridState :=
  ops.foldl (fun g op => applyGridOp op g) g

/-! ## Helper lemmas -/

theorem natDigitsRev_ne_nil (n : Nat) : natDigitsRev n ≠ [] := by
  unfold natDigitsRev
  split <;> simp

theorem natToString_ne_empty (n : Nat) : natToString n ≠ "" := by
  intro h
  have : (natDigitsRev n).reverse = [] := congrArg String.data h
  exact natDigitsRev_ne_nil n (by simpa using this)

theorem string_append_data (s t : String) : (s ++ t).data = s.data ++ t.data :=
  String.data_append s t

theorem append_ne_empty_of_right (s t : String) (h : t ≠ "") : s ++ t ≠ "" := by
  intro hc
  apply h
  have hd : s.data ++ t.data = [] := by
    have := congrArg String.data hc
    simpa [string_append_data] using this
  have : t.data = [] := (List.append_eq_nil.mp hd).2
  cases t
  simp_all

theorem append_ne_empty_of_left (s t : String) (h : s ≠ "") : s ++ t ≠ "" := by
  intro hc
  apply h
  have hd : s.data ++ t.data = [] := by
    have := congrArg String.data hc
    simpa [string_append_data] using this
  have : s.data = [] := (List.append_eq_nil.mp hd).1
  cases s
  simp_all

theorem intToString_ne_empty (i : Int) : intToString i ≠ "" := by
  unfold intToString
  split
  · exact append_ne_empty_of_right _ _ (natToString_ne_empty _)
  · exact natToString_ne_empty _

theorem dateToISO_ne_empty (ms : Int) : dateToISO ms ≠ "" := by
  unfold dateToISO
  exact append_ne_empty_of_right _ _ (by decide)

theorem jsonStringify_ne_empty (j : Json) : jsonStringify j ≠ "" := by
  cases j with
  | jnull => decide
  | jbool b => cases b <;> decide
  | jnum i => exact intToString_ne_empty i
  | jstr s =>
      exact append_ne_empty_of_left ("\"" ++ jsonEscape s) "\""
        (append_ne_empty_of_left "\"" (jsonEscape s) (by decide))
  | jarr xs =>
      simp only [jsonStringify]
      exact append_ne_empty_of_right ("[" ++ jsonStringifyList xs) "]" (by decide)
  | jobj fs =>
      simp only [jsonStringify]
      exact append_ne_empty_of_right ("\x7b" ++ jsonStringifyFields fs) "\x7d" (by decide)

theorem strLower_empty : strLower "" = "" := rfl

theorem colFiltersPass_of_blank (nf ds : List String)
    (h : ∀ f ∈ nf, f = "") : colFiltersPass nf ds = true := by
  induction nf generalizing ds with
  | nil => rfl
  | cons f fs ih =>
      have hf : f = "" := h f (by simp)
      simp [colFiltersPass, hf, ih ds.tail (fun x hx => h x (by simp [hx]))]

theorem rowPasses_of_blank (nf : List String) (row : TableRow)
    (h : ∀ f ∈ nf, f = "") : rowPasses "" nf row = true := by
  simp [rowPasses, colFiltersPass_of_blank nf row.display h]

theorem toggleSort_from_neutral (c : Nat) (g : GridState)
    (h : g.sortState = neutralSort) :
    toggleSort c g = { g with sortState := ⟨(c : Int), some SortDirection.asc⟩ } := by
  unfold toggleSort
  rw [h]
  rw [if_neg (by simp [neutralSort])]

theorem toggleSort_same_asc (c : Nat) (g : GridState)
    (h : g.sortState = ⟨(c : Int), some SortDirection.asc⟩) :
    toggleSort c g = { g with sortState := ⟨(c : Int), some SortDirection.desc⟩ } := by
  unfold toggleSort
  rw [h]
  simp

theorem toggleSort_same_desc (c : Nat) (g : GridState)
    (h : g.sortState = ⟨(c : Int), some SortDirection.desc⟩) :
    toggleSort c g = { g with sortState := neutralSort } := by
  unfold toggleSort
  rw [h]
  simp

theorem toggleSort_other (c d : Nat) (g : GridState) (dir : Option SortDirection)
    (h : g.sortState = ⟨(c : Int), dir⟩) (hne : d ≠ c) :
    toggleSort d g = { g with sortState := ⟨(d : Int), some SortDirection.asc⟩ } := by
  unfold toggleSort
  rw [h]
  rw [if_neg (by simp; omega)]

theorem toggleSort_preserves_table (i : Nat) (g : GridState) :
    (toggleSort i g).currentTableData = g.currentTableData := by
  unfold toggleSort
  split
  · split
    · rfl
    · split <;> rfl
  · rfl

/-! ## Claim theorems -/

/-- C1: for every ingested snapshot and every filter/sort/search state whose
global filter is (trim-)empty, whose per-column filters are all
(trim-)empty and whose sort direction is unset, the derived visible-row
projection of `applyTableState` is exactly the snapshot's row sequence —
same rows, same order, same count. -/
theorem claim_C1 (td : TableData) (globalFilter : String)
    (columnFilters : List String) (ss : SortState)
    (hg : jsTrim globalFilter = "") (hc : ∀ f ∈ columnFilters, jsTrim f = "")
    (hs : ss.direction = none) :
    applyTableState td globalFilter columnFilters ss = td.rows := by
  have hnf : ∀ f ∈ columnFilters.map (fun v => strLower (jsTrim v)), f = "" := by
    intro f hf
    obtain ⟨x, hx, rfl⟩ := List.mem_map.mp hf
    rw [hc x hx]
    rfl
  simp only [applyTableState, hg, hs, Option.isSome_none, Bool.false_and,
    Bool.false_eq_true, if_false]
  rw [List.filter_eq_self.mpr]
  intro r _
  exact rowPasses_of_blank _ r hnf

/-- C1 witness: a concrete two-row snapshot with all-neutral state projects to
itself. -/
theorem claim_C1_witness :
    applyTableState ⟨["a"], [⟨[Value.vNum 2], ["2"]⟩, ⟨[Value.vNum 1], ["1"]⟩]⟩
        "" [""] neutralSort
      = [⟨[Value.vNum 2], ["2"]⟩, ⟨[Value.vNum 1], ["1"]⟩] :=
  claim_C1 _ "" [""] neutralSort (by decide)
    (by intro f hf; simp at hf; subst hf; decide) rfl

/-- C2 counterexample: ingesting a zero-row result does not keep a snapshot
and does not reset the filter state — `renderResults` on an empty table
clears `currentTableData` to `none` (no snapshot held, contrary to the
claim's "a snapshot is held") and leaves a stale per-column filter in
place (contrary to the claimed reset). -/
theorem claim_C2_counterexample :
    (renderResults (some ⟨["a"], []⟩)
      ⟨some ⟨["a"], [⟨[Value.vNum 1], ["1"]⟩]⟩, ["stale"], "glob",
        ⟨0, some SortDirection.asc⟩, none⟩).currentTableData = none
    ∧ (renderResults (some ⟨["a"], []⟩)
      ⟨some ⟨["a"], [⟨[Value.vNum 1], ["1"]⟩]⟩, ["stale"], "glob",
        ⟨0, some SortDirection.asc⟩, none⟩).columnFilters = ["stale"] :=
  ⟨rfl, rfl⟩

/-- C2 (amended): ingesting a QueryResult with at least one row moves the grid
to Populated — the snapshot is held — and resets the filter/sort/search
state to neutral, with one empty per-column filter per column (so
`columnFilters.length = columns.length`); a zero-row result instead clears
the snapshot (rendering the distinguished empty message) and leaves the
filter/sort/search state unchanged (see the counterexample). -/
theorem claim_C2 (t : ArrowTable) (g : GridState) (h : t.numRows ≠ 0) :
    (renderResults (some t) g).currentTableData
        = some ⟨t.fields, t.data.map (buildTableRow t.fields)⟩
    ∧ (renderResults (some t) g).columnFilters = t.fields.map (fun _ => "")
    ∧ (renderResults (some t) g).columnFilters.length = t.fields.length
    ∧ (renderResults (some t) g).globalFilter = ""
    ∧ (renderResults (some t) g).sortState = neutralSort := by
  simp [renderResults, h]

/-- C2 witness: a concrete one-row result populates the grid and resets the
filter/sort/search state. -/
theorem claim_C2_witness :
    (renderResults (some ⟨["a"], [[("a", Value.vNum 1)]]⟩)
        ⟨none, ["stale"], "glob", ⟨0, some SortDirection.asc⟩, none⟩).currentTableData
        = some ⟨["a"], [[("a", Value.vNum 1)]].map (buildTableRow ["a"])⟩
    ∧ (renderResults (some ⟨["a"], [[("a", Value.vNum 1)]]⟩)
        ⟨none, ["stale"], "glob", ⟨0, some SortDirection.asc⟩, none⟩).columnFilters
        = ["a"].map (fun _ => "")
    ∧ (renderResults (some ⟨["a"], [[("a", Value.vNum 1)]]⟩)
        ⟨none, ["stale"], "glob", ⟨0, some SortDirection.asc⟩, none⟩).columnFilters.length
        = ["a"].length
    ∧ (renderResults (some ⟨["a"], [[("a", Value.vNum 1)]]⟩)
        ⟨none, ["stale"], "glob", ⟨0, some SortDirection.asc⟩, none⟩).globalFilter = ""
    ∧ (renderResults (some ⟨["a"], [[("a", Value.vNum 1)]]⟩)
        ⟨none, ["stale"], "glob", ⟨0, some SortDirection.asc⟩, none⟩).sortState
        = neutralSort :=
  claim_C2 ⟨["a"], [[("a", Value.vNum 1)]]⟩
    ⟨none, ["stale"], "glob", ⟨0, some SortDirection.asc⟩, none⟩ (by decide)

/-- C3: the sort-toggle cycle — from the neutral state the first toggle on a
column sets ascending, the second on the same column sets descending, the
third returns to the neutral no-sort state (indeed to the exact starting
grid state, so the visible rows return to the original pre-sort order),
and toggling a different column from either sorted state resets to
ascending on that column. -/
theorem claim_C3 (g : GridState) (c d : Nat)
    (hneutral : g.sortState = neutralSort) (hdc : d ≠ c) :
    (toggleSort c g).sortState = ⟨(c : Int), some SortDirection.asc⟩
    ∧ (toggleSort c (toggleSort c g)).sortState = ⟨(c : Int), some SortDirection.desc⟩
    ∧ (toggleSort c (toggleSort c (toggleSort c g))).sortState = neutralSort
    ∧ toggleSort c (toggleSort c (toggleSort c g)) = g
    ∧ visibleRowsOf (toggleSort c (toggleSort c (toggleSort c g))) = visibleRowsOf g
    ∧ (toggleSort d (toggleSort c g)).sortState = ⟨(d : Int), some SortDirection.asc⟩
    ∧ (toggleSort d (toggleSort c (toggleSort c g))).sortState
        = ⟨(d : Int), some SortDirection.asc⟩ := by
  have h1 := toggleSort_from_neutral c g hneutral
  have h2 := toggleSort_same_asc c (toggleSort c g) (by rw [h1])
  have h3 := toggleSort_same_desc c (toggleSort c (toggleSort c g)) (by rw [h2])
  have hg3 : toggleSort c (toggleSort c (toggleSort c g)) = g := by
    rw [h3, h2, h1]
    obtain ⟨ctd, cf, gf, ss, lar⟩ := g
    simp at hneutral
    rw [hneutral]
  refine ⟨by rw [h1], by rw [h2], by rw [hg3, hneutral], hg3, by rw [hg3], ?_, ?_⟩
  · rw [toggleSort_other c d (toggleSort c g) (some SortDirection.asc) (by rw [h1]) hdc]
  · rw [toggleSort_other c d (toggleSort c (toggleSort c g))
      (some SortDirection.desc) (by rw [h2]) hdc]

/-- C3 witness: the cycle at column 0 (with column 1 as the different column)
on a concrete neutral grid state. -/
theorem claim_C3_witness :
    (toggleSort 0 (⟨none, [], "", neutralSort, none⟩ : GridState)).sortState
        = ⟨(0 : Int), some SortDirection.asc⟩
    ∧ (toggleSort 0 (toggleSort 0 (⟨none, [], "", neutralSort, none⟩ : GridState))).sortState
        = ⟨(0 : Int), some SortDirection.desc⟩
    ∧ (toggleSort 0 (toggleSort 0 (toggleSort 0
        (⟨none, [], "", neutralSort, none⟩ : GridState)))).sortState = neutralSort
    ∧ toggleSort 0 (toggleSort 0 (toggleSort 0
        (⟨none, [], "", neutralSort, none⟩ : GridState)))
        = (⟨none, [], "", neutralSort, none⟩ : GridState)
    ∧ visibleRowsOf (toggleSort 0 (toggleSort 0 (toggleSort 0
        (⟨none, [], "", neutralSort, none⟩ : GridState))))
        = visibleRowsOf (⟨none, [], "", neutralSort, none⟩ : GridState)
    ∧ (toggleSort 1 (toggleSort 0 (⟨none, [], "", neutralSort, none⟩ : GridState))).sortState
        = ⟨(1 : Int), some SortDirection.asc⟩
    ∧ (toggleSort 1 (toggleSort 0 (toggleSort 0
        (⟨none, [], "", neutralSort, none⟩ : GridState)))).sortState
        = ⟨(1 : Int), some SortDirection.asc⟩ :=
  claim_C3 ⟨none, [], "", neutralSort, none⟩ 0 1 rfl (by decide)

/-- C4: no sequence of filter edits, sort toggles, or global-search edits
changes the held snapshot — the stored columns list and every row's raw
and display sequences are untouched (the derivation `applyTableState` is a
pure projection, and the sort operates on a copy of the filtered list). -/
theorem claim_C4 (ops : List GridOp) (g : GridState) :
    (applyGridOps ops g).currentTableData = g.currentTableData := by
  induction ops generalizing g with
  | nil => rfl
  | cons op ops ih =>
      have hop : (applyGridOp op g).currentTableData = g.currentTableData := by
        cases op with
        | setGlobalFilter v => rfl
        | setColumnFilter i v => rfl
        | toggleSortOp i => exact toggleSort_preserves_table i g
      show (applyGridOps ops (applyGridOp op g)).currentTableData = _
      rw [ih (applyGridOp op g), hop]

/-- C5: every execution attempt with non-blank query text records exactly one
history entry — prepended, with the rest of the ledger truncated to the
bound — whose `error` is present iff the engine call failed, whose
`rowCount` is the returned result's row count on success and 0 on failure,
and whose `sql` is the trimmed submitted text; the id counter advances by
one. -/
theorem claim_C5 (sql : String) (engineResult : Except String (Option ArrowTable))
    (durationMs timestamp : Nat) (st : ExecState) (h : jsTrim sql ≠ "") :
    (runQuery sql engineResult durationMs timestamp st).fst.queryHistory
      = { id := st.nextHistoryId
          sql := jsTrim sql
          timestamp := timestamp
          durationMs := durationMs
          rowCount := match engineResult with
            | Except.ok result => numRowsOpt result
            | Except.error _ => 0
          error := match engineResult with
            | Except.ok _ => none
            | Except.error msg => some msg }
        :: st.queryHistory.take 24
    ∧ (runQuery sql engineResult durationMs timestamp st).fst.nextHistoryId
        = st.nextHistoryId + 1 := by
  unfold runQuery
  rw [if_neg h]
  cases engineResult with
  | ok result => exact ⟨rfl, rfl⟩
  | error msg => exact ⟨rfl, rfl⟩

/-- C5 witness: a concrete successful run and the recorded entry. -/
theorem claim_C5_witness :
    (runQuery " select 1 " (Except.ok (some ⟨["a"], [[("a", Value.vNum 1)]]⟩)) 5 6
        ⟨⟨none, [], "", neutralSort, none⟩, [], 7⟩).fst.queryHistory
      = ({ id := 7, sql := jsTrim " select 1 ", timestamp := 6, durationMs := 5,
           rowCount := 1, error := none } : QueryHistoryEntry)
        :: ([] : List QueryHistoryEntry).take 24
    ∧ (runQuery " select 1 " (Except.ok (some ⟨["a"], [[("a", Value.vNum 1)]]⟩)) 5 6
        ⟨⟨none, [], "", neutralSort, none⟩, [], 7⟩).fst.nextHistoryId = 7 + 1 :=
  claim_C5 " select 1 " (Except.ok (some ⟨["a"], [[("a", Value.vNum 1)]]⟩)) 5 6
    ⟨⟨none, [], "", neutralSort, none⟩, [], 7⟩ (by decide)

theorem take25_append_take (a l : List QueryHistoryEntry) :
    (a ++ l.take 25).take 25 = (a ++ l).take 25 := by
  rw [List.take_append_eq_append_take, List.take_append_eq_append_take, List.take_take,
    Nat.min_eq_left (by omega)]

theorem recordAllHistory_eq (es : List QueryHistoryEntry)
    (h : List QueryHistoryEntry) (hlen : h.length ≤ 25) :
    recordAllHistory es h = (es.reverse ++ h).take 25 := by
  induction es generalizing h with
  | nil => simp [recordAllHistory, List.take_of_length_le hlen]
  | cons e es ih =>
      show recordAllHistory es (recordQueryHistory e h) = _
      rw [ih (recordQueryHistory e h) (by simp [recordQueryHistory])]
      show (es.reverse ++ (e :: h).take 25).take 25 = _
      rw [take25_append_take]
      simp

/-- C6: starting from the empty ledger, after any sequence of record
operations the ledger holds at most 25 entries, equals the most-recent-25
in most-recent-first order (newest at index 0, i.e. the head is the last
entry recorded), and after recording `25 + k` entries it is exactly the
reversal of the entries after the first `k` — the `k` oldest are dropped
and no longer retrievable. -/
theorem claim_C6 (es : List QueryHistoryEntry) (k : Nat) :
    (recordAllHistory es []).length ≤ 25
    ∧ recordAllHistory es [] = es.reverse.take 25
    ∧ (recordAllHistory es []).head? = es.getLast?
    ∧ (es.length = 25 + k → recordAllHistory es [] = (es.drop k).reverse) := by
  have hbase := recordAllHistory_eq es [] (by simp)
  rw [List.append_nil] at hbase
  refine ⟨?_, hbase, ?_, ?_⟩
  · rw [hbase]
    simp
  · rw [hbase, ← List.head?_reverse]
    cases hr : es.reverse with
    | nil => rfl
    | cons a as =>
        rw [show (25 : Nat) = 24 + 1 from rfl, List.take_succ_cons]
        rfl
  · intro hlen
    rw [hbase, List.take_reverse, hlen]
    congr 2
    omega

/-- C6 witness: recording 26 entries keeps 25, newest first, oldest dropped. -/
theorem claim_C6_witness :
    (recordAllHistory ((List.range 26).map
        (fun i => ⟨i, "q", 0, 0, 0, none⟩)) []).length ≤ 25
    ∧ recordAllHistory ((List.range 26).map (fun i => ⟨i, "q", 0, 0, 0, none⟩)) []
        = ((List.range 26).map (fun i => ⟨i, "q", 0, 0, 0, none⟩)).reverse.take 25
    ∧ (recordAllHistory ((List.range 26).map (fun i => ⟨i, "q", 0, 0, 0, none⟩)) []).head?
        = ((List.range 26).map (fun i => (⟨i, "q", 0, 0, 0, none⟩ : QueryHistoryEntry))).getLast?
    ∧ recordAllHistory ((List.range 26).map (fun i => ⟨i, "q", 0, 0, 0, none⟩)) []
        = (((List.range 26).map (fun i => (⟨i, "q", 0, 0, 0, none⟩ : QueryHistoryEntry))).drop 1).reverse := by
  have h := claim_C6 ((List.range 26).map (fun i => ⟨i, "q", 0, 0, 0, none⟩)) 1
  exact ⟨h.1, h.2.1, h.2.2.1, h.2.2.2 (by decide)⟩

/-- C7: loader selection returns the first loader in the fixed priority order
Arrow, Parquet, CSV whose case-insensitive extension-suffix predicate
matches, and the CSV loader as the default when none matches; selection is
a total pure function of the filename. -/
theorem claim_C7 (fileName : String) :
    selectLoader fileName =
      (if arrowLoader.canLoad fileName then arrowLoader
       else if parquetLoader.canLoad fileName then parquetLoader
       else csvLoader) := by
  unfold selectLoader DATA_LOADERS
  cases h1 : arrowLoader.canLoad fileName <;>
    cases h2 : parquetLoader.canLoad fileName <;>
      cases h3 : csvLoader.canLoad fileName <;>
        simp [List.find?, h1, h2, h3]

theorem wordChar_of_map (cs : List Char) :
    ∀ c ∈ cs.map (fun c => if isWordChar c then c else '_'), isWordChar c = true := by
  intro c hc
  obtain ⟨a, _, rfl⟩ := List.mem_map.mp hc
  by_cases h : isWordChar a = true
  · simp [h]
  · simp only [h, if_false, Bool.false_eq_true]
    decide

theorem identStart_of_word_not_digit (c : Char) (h1 : isWordChar c = true)
    (h2 : isDigitChar c = false) : isIdentStartChar c = true := by
  have hnd : ¬('0' ≤ c ∧ c ≤ '9') := by
    intro hcon
    have hdig : isDigitChar c = true := by
      simp only [isDigitChar, Bool.and_eq_true, decide_eq_true_eq]
      exact hcon
    rw [hdig] at h2
    cases h2
  simp only [isWordChar, Bool.or_eq_true, Bool.and_eq_true, decide_eq_true_eq,
    beq_iff_eq] at h1
  simp only [isIdentStartChar, Bool.or_eq_true, Bool.and_eq_true, decide_eq_true_eq,
    beq_iff_eq]
  rcases h1 with ((h | h) | h) | h
  · exact Or.inl (Or.inl h)
  · exact Or.inl (Or.inr h)
  · exact absurd h hnd
  · exact Or.inr h

theorem matchesIdentPattern_mk (s1 : List Char) (h1 : s1 ≠ [])
    (hword : ∀ c ∈ s1, isWordChar c = true) :
    matchesIdentPattern ⟨if isDigitChar (s1.headD ' ') then 'v' :: '_' :: s1 else s1⟩
      = true := by
  cases s1 with
  | nil => exact absurd rfl h1
  | cons c rest =>
      by_cases hd : isDigitChar ((c :: rest).headD ' ') = true
      · rw [if_pos hd]
        show (isIdentStartChar 'v' && ('_' :: c :: rest).all isWordChar) = true
        simp only [Bool.and_eq_true, List.all_cons]
        refine ⟨by decide, by decide, hword c (by simp), ?_⟩
        rw [List.all_eq_true]
        intro x hx
        exact hword x (by simp [hx])
      · rw [if_neg hd]
        show (isIdentStartChar c && rest.all isWordChar) = true
        simp only [Bool.and_eq_true]
        refine ⟨?_, ?_⟩
        · exact identStart_of_word_not_digit c (hword c (by simp))
            (by simpa using Bool.of_not_eq_true hd)
        · rw [List.all_eq_true]
          intro x hx
          exact hword x (by simp [hx])

/-- C8: the relation-name sanitizer is total and deterministic, and for every
input filename its output is non-empty and matches
`^[A-Za-z_][A-Za-z0-9_]*$`. -/
theorem claim_C8 (fileName : String) :
    matchesIdentPattern (generateViewName fileName) = true := by
  unfold generateViewName
  by_cases hemp : ((stripLastExtension (lastPathComponent fileName.data)).map
      (fun c => if isWordChar c then c else '_')).isEmpty = true
  · simp only [hemp, if_pos]
    exact matchesIdentPattern_mk _ (by decide) (by decide)
  · simp only [hemp, Bool.false_eq_true, if_false]
    refine matchesIdentPattern_mk _ ?_ (wordChar_of_map _)
    intro hc
    rw [hc] at hemp
    exact hemp rfl

/-- C9: an export request whose query text trims to empty fails early for
every format with the export-error status message: the session state is
unchanged and the effect trace is exactly that one status update — no
engine statement is issued and no byte-carrying host message is sent. -/
theorem claim_C9 (format : ExportFormat) (queryText : String)
    (engineRun : Except String (Option ArrowTable)) (ipcByteLength : Nat)
    (copyOutcome : Except String Nat) (durationMs timestamp now : Nat)
    (st : ExecState) (h : jsTrim queryText = "") :
    exportResult format queryText engineRun ipcByteLength copyOutcome
        durationMs timestamp now st
      = (st, [ExportEffect.exportStatus "Write a SQL query to export first."])
    ∧ ∀ e ∈ (exportResult format queryText engineRun ipcByteLength copyOutcome
        durationMs timestamp now st).snd,
        e.isEngineQuery = false ∧ e.isHostByteMessage = false := by
  have he : exportResult format queryText engineRun ipcByteLength copyOutcome
      durationMs timestamp now st
      = (st, [ExportEffect.exportStatus "Write a SQL query to export first."]) := by
    unfold exportResult
    rw [if_pos h]
  refine ⟨he, ?_⟩
  rw [he]
  intro e hmem
  rw [List.mem_singleton] at hmem
  subst hmem
  exact ⟨rfl, rfl⟩

/-- C9 witness: a concrete whitespace-only query text yields only the
export-error status. -/
theorem claim_C9_witness :
    (exportResult ExportFormat.csv "  " (Except.ok none) 0 (Except.ok 0) 0 0 0
        ⟨⟨none, [], "", neutralSort, none⟩, [], 1⟩).snd
      = [ExportEffect.exportStatus "Write a SQL query to export first."] :=
  congrArg Prod.snd
    (claim_C9 ExportFormat.csv "  " (Except.ok none) 0 (Except.ok 0) 0 0 0
      ⟨⟨none, [], "", neutralSort, none⟩, [], 1⟩ (by decide)).1

/-- C10 counterexample: the empty-string cell value also renders as the empty
string, although it is neither null, undefined, nor a non-finite number —
so "exactly when" fails in the only-if direction. -/
theorem claim_C10_counterexample :
    formatCell (Value.vStr "") = ""
    ∧ Value.vStr "" ≠ Value.vNull
    ∧ Value.vStr "" ≠ Value.vUndefined
    ∧ Value.vStr "" ≠ Value.vNaN
    ∧ Value.vStr "" ≠ Value.vInf
    ∧ Value.vStr "" ≠ Value.vNegInf := by
  refine ⟨rfl, ?_, ?_, ?_, ?_, ?_⟩ <;> intro hcon <;> cases hcon

/-- C10 (amended): `formatCell` maps a value to the empty string exactly when
the value is null, undefined, a non-finite number (NaN, +Infinity,
-Infinity), or the empty string itself; all such cells are therefore
indistinguishable in the display text that filtering, searching, and the
text-comparison sort fallback operate on. -/
theorem claim_C10 (v : Value) :
    formatCell v = "" ↔
      (v = Value.vNull ∨ v = Value.vUndefined ∨ v = Value.vNaN ∨ v = Value.vInf
        ∨ v = Value.vNegInf ∨ v = Value.vStr "") := by
  cases v with
  | vNull => simp [formatCell]
  | vUndefined => simp [formatCell]
  | vNum i => simp [formatCell, intToString_ne_empty i]
  | vNaN => simp [formatCell]
  | vInf => simp [formatCell]
  | vNegInf => simp [formatCell]
  | vDate ms => simp [formatCell, dateToISO_ne_empty ms]
  | vStr s => simp [formatCell]
  | vBool b => cases b <;> simp [formatCell]
  | vBigInt i => simp [formatCell, intToString_ne_empty i]
  | vObj j => simp [formatCell, jsonStringify_ne_empty j]

end DataViewer
